import Mathlib

/-!
Shallow embedding of the core logic of `auth_api/services/affiliation.py` and
`auth_api/services/membership.py` (sbc-auth), together with theorems checking the
natural-language specification against it.

Conventions:
- Python dicts coming from the registry sources (name requests, business entities,
  draft entities) are embedded as structures whose `Option` fields model optional
  dict keys; the `tag` field stands for the remaining payload of the dict, so that
  structural equality of the embeddings coincides with Python `==` on the dicts.
- Python list mutation during iteration in `_combine_nrs` is embedded by tagging
  every draft/business dict with a unique object id (its position in the iterated
  `drafts + businesses` snapshot): in-place mutation of the dict bound to the loop
  variable becomes `setId`, `list.remove` becomes `removeFirstEq` (first structurally
  equal element, `none` models the `ValueError` raised when no element matches), and
  the `in` test becomes `memValue`.
- Fallible operations return `Option`/`Except`.
-/

/-- A raw name-request record from a NAMEX response (`nrNum` dict key optional,
`stateCd` / `request_action_cd` accessed with `[]` by the source). -/
structure NRRec where
  nrNum : Option String
  stateCd : String
  request_action_cd : String
  deriving DecidableEq, Repr

/-- A business / draft / combined affiliation dict. `identifier`, `nrNumber`,
`nameRequest`, `draftType`, `legalType` model the dict keys of those names read or
written by `affiliation.py`; `tag` models the rest of the dict's payload (two dicts
are Python-equal iff all fields including `tag` agree). -/
structure Rec where
  identifier : Option String
  nrNumber : Option String
  nameRequest : Option NRRec
  draftType : Option String
  legalType : Option String
  tag : Nat
  deriving DecidableEq, Repr

/-- Python dict lookup on an insertion-ordered association list (`d.get(key)`). -/
def assocLookup {β : Type} : List (String × β) → String → Option β
  | [], _ => none
  | (k, v) :: rest, key => if k = key then some v else assocLookup rest key

/-- Python dict assignment `d[key] = val`: overwrite in place if the key exists,
otherwise append (insertion order preserved). -/
def assocSet {β : Type} : List (String × β) → String → β → List (String × β)
  | [], key, val => [(key, val)]
  | (k, v) :: rest, key, val =>
    if k = key then (key, val) :: rest else (k, v) :: assocSet rest key val

/-- Python `del d[key]` on a dict (keys are unique in a dict, so removing every
pair with the key is the same operation). -/
def assocErase {β : Type} (m : List (String × β)) (key : String) : List (String × β) :=
  m.filter (fun p => p.1 != key)

/-- Python truthiness of `d.get(key)` for a string-valued optional key:
absent or `""` is falsy. -/
def truthy : Option String → Bool
  | none => false
  | some s => s != ""

/-- One raw per-source response payload, as consumed by `_extract_name_requests` and
`_group_details`: either a bare JSON list of name requests, or a dict with optional
`requests`, `hasMore`, `businessEntities`, `draftEntities` keys. -/
inductive RawResp where
  | plainList (requests : List NRRec)
  | payload (requests : Option (List NRRec)) (hasMore : Bool)
      (businessEntities : Option (List Rec)) (draftEntities : Option (List Rec))
  deriving DecidableEq, Repr

/-- `Affiliation._extract_name_requests`, restricted to the `requests` list the
callers use (a bare list is taken whole; a dict contributes its `requests` list when
present, else `[]`). -/
def extract_name_requests : RawResp → List NRRec
  | .plainList reqs => reqs
  | .payload reqs _ _ _ => reqs.getD []

/-- The dict `{"legalType": CorpType.NR.value, "nameRequest": name_request}` stored
into the `name_requests` mapping by `_group_details`. -/
def nrEntry (nr : NRRec) : Rec :=
  { identifier := none, nrNumber := none, nameRequest := some nr,
    draftType := none, legalType := some "NR", tag := 0 }

/-- One name request folded into the mapping by `_group_details`:
`if "nrNum" in name_request: name_requests[name_request["nrNum"]] = {...}`. -/
def nrFoldStep (m : List (String × Rec)) (nr : NRRec) : List (String × Rec) :=
  match nr.nrNum with
  | some n => assocSet m n (nrEntry nr)
  | none => m

/-- One iteration of the `for data in details` loop of `_group_details`:
record every name request that has an `nrNum` key into the mapping, then extend the
`businesses` and `drafts` lists when the corresponding keys are present. -/
def groupStep (acc : List (String × Rec) × List Rec × List Rec) (data : RawResp) :
    List (String × Rec) × List Rec × List Rec :=
  let nrm := (extract_name_requests data).foldl nrFoldStep acc.1
  match data with
  | .plainList _ => (nrm, acc.2.1, acc.2.2)
  | .payload _ _ bs ds => (nrm, acc.2.1 ++ bs.getD [], acc.2.2 ++ ds.getD [])

/-- `Affiliation._group_details details` = `(name_requests, businesses, drafts)`. -/
def group_details (details : List RawResp) : List (String × Rec) × List Rec × List Rec :=
  details.foldl groupStep ([], [], [])

/-- The mutable state threaded through the `_combine_nrs` loop: the
`name_requests` mapping plus the `drafts` and `businesses` lists, each element
tagged with its unique object id. -/
structure CState where
  nrm : List (String × Rec)
  drafts : List (Nat × Rec)
  businesses : List (Nat × Rec)
  deriving DecidableEq, Repr

/-- In-place mutation of the dict object with id `i` (a no-op on a list that does not
hold that object). -/
def setId (i : Nat) (v : Rec) (l : List (Nat × Rec)) : List (Nat × Rec) :=
  l.map (fun p => if p.1 = i then (i, v) else p)

/-- Python `list.remove(v)`: drop the first structurally equal element; `none` models
the `ValueError` raised when no element equals `v`. -/
def removeFirstEq (v : Rec) : List (Nat × Rec) → Option (List (Nat × Rec))
  | [] => none
  | p :: rest => if p.2 = v then some rest else (removeFirstEq v rest).map (fun l => p :: l)

/-- Python `v in l` on a list of dicts (structural equality). -/
def memValue (v : Rec) (l : List (Nat × Rec)) : Bool :=
  l.any (fun p => p.2 == v)

/-- Condition of `_update_draft_type_for_amalgamation_nr`: the record has a truthy
`draftType` and its (just attached) name request is an amalgamation
(`NRActionCodes.AMALGAMATE.value = "AMA"`). -/
def updateDraftTypeGuard (r : Rec) (nr : NRRec) : Bool :=
  truthy r.draftType && (nr.request_action_cd == "AMA")

/-- `business["nameRequest"] = name_requests[nr_num]["nameRequest"]` followed by
`_update_draft_type_for_amalgamation_nr` (recode the draft type to ATMP for an
amalgamation name request). -/
def attachNR (rec : Rec) (nr : NRRec) : Rec :=
  let r1 : Rec := { rec with nameRequest := some nr }
  if updateDraftTypeGuard r1 nr then { r1 with draftType := some "ATMP" } else r1

/-- One iteration of the `for business in drafts + businesses` loop of
`_combine_nrs`, applied to the object with id `i` whose (original) value is `rec`:
the guard `"nrNumber" in business and business["nrNumber"]`, then
`_process_nr_for_business` (attach the name request, `_update_draft_type_for_amalgamation_nr`,
remove the consumed copy from `drafts`, delete the mapping entry) or, when the
reference does not resolve, the stale-draft removal
`if not processed and remove_stale_drafts and business in drafts`. -/
def combineStep (rsd : Bool) (st : CState) (i : Nat) (rec : Rec) : Option CState :=
  if truthy rec.nrNumber then
    let n := rec.nrNumber.getD ""
    match assocLookup st.nrm n with
    | some entry =>
      match entry.nameRequest with
      | none => none
      | some nr =>
        let r2 : Rec := attachNR rec nr
        let st1 : CState :=
          { nrm := st.nrm, drafts := setId i r2 st.drafts, businesses := setId i r2 st.businesses }
        if nr.stateCd == "CONSUMED" then
          match removeFirstEq r2 st1.drafts with
          | some ds => some { nrm := assocErase st1.nrm n, drafts := ds, businesses := st1.businesses }
          | none => none
        else
          some { st1 with nrm := assocErase st1.nrm n }
    | none =>
      if rsd && memValue rec st.drafts then
        match removeFirstEq rec st.drafts with
        | some ds => some { st with drafts := ds }
        | none => none
      else some st
  else some st

/-- Run the `_combine_nrs` loop over the snapshot of `drafts + businesses`. -/
def combineSteps (rsd : Bool) : List (Nat × Rec) → CState → Option CState
  | [], st => some st
  | (i, r) :: rest, st =>
    match combineStep rsd st i r with
    | some st' => combineSteps rsd rest st'
    | none => none

/-- Tag a list of dict objects with consecutive object ids starting at `s`. -/
def tagFrom (s : Nat) : List Rec → List (Nat × Rec)
  | [] => []
  | r :: rest => (s, r) :: tagFrom (s + 1) rest

/-- The final state of the `_combine_nrs` loop (`none` models an uncaught
`ValueError`/`KeyError`). -/
def combineStateRun (nrm : List (String × Rec)) (businesses drafts : List Rec) (rsd : Bool) :
    Option CState :=
  let ds := tagFrom 0 drafts
  let bs := tagFrom drafts.length businesses
  combineSteps rsd (ds ++ bs) { nrm := nrm, drafts := ds, businesses := bs }

/-- `list(name_requests.values()) + drafts + businesses`. -/
def renderState (st : CState) : List Rec :=
  st.nrm.map (fun p => p.2) ++ st.drafts.map (fun p => p.2) ++ st.businesses.map (fun p => p.2)

/-- `Affiliation._combine_nrs(name_requests, businesses, drafts, remove_stale_drafts)`. -/
def combine_nrs (nrm : List (String × Rec)) (businesses drafts : List Rec) (rsd : Bool) :
    Option (List Rec) :=
  (combineStateRun nrm businesses drafts rsd).map renderState

/-- `Affiliation._combine_affiliation_details(details, remove_stale_drafts)`. -/
def combine_affiliation_details (details : List RawResp) (rsd : Bool) : Option (List Rec) :=
  combine_nrs (group_details details).1 (group_details details).2.1
    (group_details details).2.2 rsd

/-- `AffiliationBase` snapshot: identifier plus creation timestamp (timestamps are
embedded as naturals; `datetime.datetime.min` is `0`). -/
structure AffiliationBase where
  identifier : String
  created : Nat
  deriving DecidableEq, Repr

/-- Insert `a` in front of the first element whose key is `≤ key a` (descending
insertion, ties keep the existing element behind the new one's original position). -/
def orderedInsertDesc {α : Type} (key : α → Nat) (a : α) : List α → List α
  | [] => [a]
  | b :: l => if key b ≤ key a then a :: b :: l else b :: orderedInsertDesc key a l

/-- Stable descending sort by a natural-valued key. Python's `list.sort(key=...,
reverse=True)` / `sorted(..., reverse=True)` are stable descending sorts, and a
stable sort's output is uniquely determined by the key order, so this insertion sort
computes the same list. -/
def sortDescBy {α : Type} (key : α → Nat) : List α → List α
  | [] => []
  | a :: l => orderedInsertDesc key a (sortDescBy key l)

/-- The `ordered` dict of `_sort_affiliations_by_created`: iterate the bases in
descending creation order and record `identifier -> created` (a duplicated identifier
keeps its first position, last value). -/
def buildOrdered (bases : List AffiliationBase) : List (String × Nat) :=
  (sortDescBy (fun b => b.created) bases).foldl
    (fun m b => assocSet m b.identifier b.created) []

/-- `item.get("identifier", item.get("nameRequest", {}).get("nrNum", ""))`. -/
def sortIdOf (r : Rec) : String :=
  match r.identifier with
  | some s => s
  | none =>
    match r.nameRequest with
    | some nr => nr.nrNum.getD ""
    | none => ""

/-- The `sort_key` closure of `_sort_affiliations_by_created` (a missing base maps to
`datetime.datetime.min`, i.e. `0`). -/
def sortKeyOf (om : List (String × Nat)) (r : Rec) : Nat :=
  (assocLookup om (sortIdOf r)).getD 0

/-- `Affiliation._sort_affiliations_by_created(combined, affiliation_bases)`. -/
def sort_affiliations_by_created (combined : List Rec) (bases : List AffiliationBase) :
    List Rec :=
  sortDescBy (sortKeyOf (buildOrdered bases)) combined

/-! ### Membership state machine (`membership.py`) -/

/-- Role code `ADMIN` (`auth_api.utils.roles`). -/
def ADMIN : String := "ADMIN"

/-- Role code `COORDINATOR`. -/
def COORDINATOR : String := "COORDINATOR"

/-- Role code `STAFF`. -/
def STAFF : String := "STAFF"

/-- Modelled from the spec: `Status.ACTIVE.value` of the membership status enum
(`auth_api.utils.enums`, not part of the provided sources); the concrete numeral is
immaterial, only distinctness of the status ids is used. -/
def ACTIVE_STATUS : Nat := 1

/-- Modelled from the spec: `Status.INACTIVE.value`. -/
def INACTIVE_STATUS : Nat := 2

/-- Modelled from the spec: `Status.PENDING_APPROVAL.value`. -/
def PENDING_APPROVAL_STATUS : Nat := 4

/-- A `MembershipType` model instance as passed inside `updated_fields`
(the source reads its `code` attribute at line 233 and assigns it to the
`membership_type` relationship). -/
structure MType where
  code : String
  deriving DecidableEq, Repr

/-- A `MembershipStatusCode` model instance (`updated_membership_status.id`). -/
structure StatusCode where
  id : Nat
  deriving DecidableEq, Repr

/-- The target membership row together with the parts of its object graph the
service reads. `org_members` embeds `self._model.org.members` — modelled from the
spec: the spec counts the org's ACTIVE memberships for the owner-count invariant, so
the relationship is taken to hold the membership-type codes of the org's ACTIVE
memberships. `org_type_code` is the org's type (never consulted by the guards).
`extras` models the remaining mutable attributes touched only through
`setattr`. -/
structure MembershipModel where
  membership_type_code : String
  status : Nat
  login_source : String
  org_members : List String
  org_type_code : String
  extras : List (String × String)
  deriving DecidableEq, Repr

/-- The `updated_fields` dict of `update_membership`: the two keys the service
inspects (each `none` when the key is absent or maps to `None`), plus arbitrary
further attribute updates. -/
structure UpdatedFields where
  membership_type : Option MType
  membership_status : Option StatusCode
  extras : List (String × Option String)
  deriving DecidableEq, Repr

/-- Modelled from the spec: the database context consulted by
`_check_if_add_user_has_active_staff_org` — the org type codes of every org in which
the target user currently holds an ACTIVE membership (the composition of
`MembershipModel.find_memberships_by_user_id_and_status` and
`OrgModel.find_by_org_ids_and_org_types`, which are not part of the provided
sources). -/
structure World where
  user_active_org_types : List String
  deriving DecidableEq, Repr

/-- `Membership.get_owner_count(org)`:
`len([x for x in org.members if x.membership_type_code == ADMIN])`. -/
def get_owner_count (org_members : List String) : Nat :=
  (org_members.filter (fun c => c == ADMIN)).length

/-- Modelled from the spec: `check_auth(org_id=..., one_of_roles=...)` (from
`auth_api/services/authorization.py`, not part of the provided sources) raises unless
the caller holds one of the given roles on the org; staff callers pass via the
`STAFF` role. Embedded as the boolean success of that check against the caller's
roles on the target org. -/
def check_auth (caller_org_roles : List String) (one_of_roles : List String) : Bool :=
  one_of_roles.any (fun r => caller_org_roles.contains r)

/-- `list(org_type_to_group_mapping.keys())`: the staff-tier org types
(`OrgType.MAXIMUS_STAFF/CC_STAFF/SBC_STAFF`). -/
def staff_org_types : List String := ["MAXIMUS_STAFF", "CC_STAFF", "SBC_STAFF"]

/-- `Membership._check_if_add_user_has_active_staff_org(updated_membership_status,
user_id)` raises (returns `true` here) iff a membership status object was supplied,
its id is ACTIVE, and the user already holds an ACTIVE membership in some org of a
staff-tier type. The target org plays no part in the check. -/
def check_if_add_user_has_active_staff_org (ums : Option StatusCode) (w : World) : Bool :=
  (match ums with
   | some s => s.id == ACTIVE_STATUS
   | none => false)
  && w.user_active_org_types.any (fun t => staff_org_types.contains t)

/-- The `BusinessException` error codes raised by the membership service. -/
inductive MError where
  | unauthorized
  | maxNumberOfStaffOrgsLimit
  | bceidUsersCantBeOwners
  | changeRoleFailedOnlyOwner
  deriving DecidableEq, Repr

/-- Python `==` between `updated_fields.get("membership_type", None)` and a role-code
string (`membership.py` lines 237 and 255). The value is an optional
`MembershipType` model instance (line 233 reads its `code` attribute and line 262
assigns it to the `membership_type` relationship): `None == "ADMIN"` is `False`, and
a SQLAlchemy model instance compares by identity and never equals a `str`, so the
comparison is `false` for every operand. -/
def py_eq_mtype_str : Option MType → String → Bool
  | none, _ => false
  | some _, _ => false

/-- One `setattr` from the field-application loop for an attribute other than the
two the guards inspect: applied only when the value is not `None`. -/
def applyExtra (acc : MembershipModel) (kv : String × Option String) : MembershipModel :=
  match kv.2 with
  | some v => { acc with extras := assocSet acc.extras kv.1 v }
  | none => acc

/-- The field-application loop of `update_membership` (lines 260–263):
`for key, value in updated_fields.items(): if value is not None: setattr(...)`. -/
def apply_updated_fields (m : MembershipModel) (uf : UpdatedFields) : MembershipModel :=
  let m1 := match uf.membership_type with
    | some t => { m with membership_type_code := t.code }
    | none => m
  let m2 := match uf.membership_status with
    | some s => { m1 with status := s.id }
    | none => m1
  uf.extras.foldl applyExtra m2

/-- `Membership.update_membership(updated_fields)`: the guard sequence followed by the
field application. The persistence write and the notification / activity-log /
keycloak steps after it act only on external collaborators and are not embedded; the
returned model is the membership after `save()`. -/
def update_membership (caller_org_roles : List String) (w : World) (m : MembershipModel)
    (uf : UpdatedFields) : Except MError MembershipModel :=
  if !check_auth caller_org_roles [COORDINATOR, ADMIN, STAFF] then .error .unauthorized
  else if check_if_add_user_has_active_staff_org uf.membership_status w then
    .error .maxNumberOfStaffOrgsLimit
  else if m.login_source == "BCEID" && (uf.membership_type.map MType.code == some ADMIN) then
    .error .bceidUsersCantBeOwners
  else if m.membership_type_code == COORDINATOR && py_eq_mtype_str uf.membership_type ADMIN
      && !check_auth caller_org_roles [ADMIN, STAFF] then
    .error .unauthorized
  else if (match uf.membership_status with
           | some s => s.id == INACTIVE_STATUS
           | none => false)
      && m.membership_type_code == ADMIN && get_owner_count m.org_members == 1 then
    .error .changeRoleFailedOnlyOwner
  else if m.membership_type_code == ADMIN && !py_eq_mtype_str uf.membership_type ADMIN
      && get_owner_count m.org_members == 1 then
    .error .changeRoleFailedOnlyOwner
  else .ok (apply_updated_fields m uf)

/-- `Membership.deactivate_membership()`: the two role-based `check_auth` guards
followed by the unconditional transition to INACTIVE. `is_self` is
`self._model.user.username == user_from_context.user_name`. -/
def deactivate_membership (caller_org_roles : List String) (is_self : Bool)
    (m : MembershipModel) : Except MError MembershipModel :=
  if !is_self && !check_auth caller_org_roles [COORDINATOR, ADMIN] then .error .unauthorized
  else if m.membership_type_code == ADMIN && !check_auth caller_org_roles [ADMIN] then
    .error .unauthorized
  else .ok { m with status := INACTIVE_STATUS }

/-! ### Affiliation authorization (`Affiliation.is_authorized`) -/

/-- The entity descriptor read by `is_authorized` (`pass_code` is the stored
passcode, `""` when none is on record). -/
structure EntityModel where
  corp_type : String
  business_identifier : String
  pass_code : String
  deriving DecidableEq, Repr

/-- Modelled from the spec: `validate_passcode(pass_code, entity.pass_code)` from
`auth_api/utils/passcode.py` is not part of the provided sources. The spec's
`validateStoredPasscode(supplied, stored)` authorizes iff the supplied passcode
matches the stored one and "must treat empty stored value as non-matching when
supplied is non-empty". -/
def validate_passcode (pass_code stored : String) : Bool :=
  if stored == "" then false else pass_code == stored

/-- `Affiliation.is_authorized(entity, pass_code)`. `skip_auth` is the result of the
`has_role_to_skip_auth()` collaborator call, `firms_party_match` the result of the
`_validate_firms_party` registry lookup for the SP/GP branch. -/
def is_authorized (skip_auth : Bool) (firms_party_match : Bool) (entity : EntityModel)
    (pass_code : Option String) : Bool :=
  if skip_auth then true
  else if entity.corp_type == "SP" || entity.corp_type == "GP" then
    if !truthy pass_code then false else firms_party_match
  else if truthy pass_code then validate_passcode (pass_code.getD "") entity.pass_code
  else if entity.pass_code != "" then false
  else true

/-! ### Helper lemmas -/

theorem foldl_applyExtra_frame (l : List (String × Option String)) (acc : MembershipModel) :
    (List.foldl applyExtra acc l).membership_type_code = acc.membership_type_code ∧
    (List.foldl applyExtra acc l).status = acc.status ∧
    (List.foldl applyExtra acc l).login_source = acc.login_source ∧
    (List.foldl applyExtra acc l).org_members = acc.org_members ∧
    (List.foldl applyExtra acc l).org_type_code = acc.org_type_code := by
  induction l generalizing acc with
  | nil => exact ⟨rfl, rfl, rfl, rfl, rfl⟩
  | cons kv rest ih =>
    have h : (applyExtra acc kv).membership_type_code = acc.membership_type_code ∧
        (applyExtra acc kv).status = acc.status ∧
        (applyExtra acc kv).login_source = acc.login_source ∧
        (applyExtra acc kv).org_members = acc.org_members ∧
        (applyExtra acc kv).org_type_code = acc.org_type_code := by
      cases hv : kv.2 <;> simp [applyExtra, hv]
    have ih' := ih (applyExtra acc kv)
    simp only [List.foldl_cons]
    exact ⟨ih'.1.trans h.1, ih'.2.1.trans h.2.1, ih'.2.2.1.trans h.2.2.1,
      ih'.2.2.2.1.trans h.2.2.2.1, ih'.2.2.2.2.trans h.2.2.2.2⟩

theorem assocLookup_assocSet_ne {β : Type} (m : List (String × β)) (k k' : String) (v : β)
    (h : k ≠ k') : assocLookup (assocSet m k' v) k = assocLookup m k := by
  induction m with
  | nil =>
    simp only [assocSet, assocLookup]
    rw [if_neg (Ne.symm h)]
  | cons p rest ih =>
    cases p with
    | mk pk pv =>
      by_cases hp : pk = k'
      · have hpk : ¬ pk = k := by
          intro hk
          exact h (by rw [← hk, hp])
        simp only [assocSet, if_pos hp, assocLookup, if_neg hpk]
        rw [if_neg (Ne.symm h)]
      · simp only [assocSet, if_neg hp, assocLookup]
        by_cases hk : pk = k
        · simp [hk]
        · simp [hk, ih]

theorem foldl_applyExtra_lookup (l : List (String × Option String)) (acc : MembershipModel)
    (k : String) (h : ∀ v, (k, some v) ∉ l) :
    assocLookup (List.foldl applyExtra acc l).extras k = assocLookup acc.extras k := by
  induction l generalizing acc with
  | nil => rfl
  | cons kv rest ih =>
    have hrest : ∀ v, (k, some v) ∉ rest := by
      intro v hv
      exact h v (List.mem_cons_of_mem _ hv)
    have hstep : assocLookup (applyExtra acc kv).extras k = assocLookup acc.extras k := by
      cases hv : kv.2 with
      | none => simp [applyExtra, hv]
      | some v =>
        have hne : k ≠ kv.1 := by
          intro hk
          apply h v
          have hkv : (k, some v) = kv := by
            cases kv with
            | mk a b =>
              simp only at hv hk
              rw [hk, hv]
          rw [hkv]
          exact List.mem_cons_self _ _
        simp [applyExtra, hv, assocLookup_assocSet_ne _ _ _ _ hne]
    simp only [List.foldl_cons]
    exact (ih (applyExtra acc kv) hrest).trans hstep

theorem check_staff_org_iff (ums : Option StatusCode) (w : World) :
    check_if_add_user_has_active_staff_org ums w = true ↔
      (∃ s, ums = some s ∧ s.id = ACTIVE_STATUS) ∧
      ∃ tp ∈ w.user_active_org_types, tp ∈ staff_org_types := by
  cases ums with
  | none => simp [check_if_add_user_has_active_staff_org]
  | some s =>
    simp [check_if_add_user_has_active_staff_org, List.any_eq_true]

/-! ### Claim theorems -/

/-- C10: in `update_membership` only the entries of `updated_fields` whose value is
not `None` are applied: a field supplied as `None` (or not supplied at all) keeps its
stored value after the field-application loop, and attributes never listed keep
theirs — a caller cannot clear a field by passing `None`. -/
theorem c10_none_values_not_applied (m : MembershipModel) (uf : UpdatedFields) :
    (uf.membership_type = none →
      (apply_updated_fields m uf).membership_type_code = m.membership_type_code) ∧
    (uf.membership_status = none → (apply_updated_fields m uf).status = m.status) ∧
    (∀ k, (∀ v, (k, some v) ∉ uf.extras) →
      assocLookup (apply_updated_fields m uf).extras k = assocLookup m.extras k) ∧
    (apply_updated_fields m uf).login_source = m.login_source ∧
    (apply_updated_fields m uf).org_members = m.org_members ∧
    (apply_updated_fields m uf).org_type_code = m.org_type_code := by
  refine ⟨?_, ?_, ?_, ?_, ?_, ?_⟩
  · intro ht
    cases hs : uf.membership_status with
    | none =>
      simp only [apply_updated_fields, ht, hs]
      exact (foldl_applyExtra_frame uf.extras m).1
    | some s =>
      simp only [apply_updated_fields, ht, hs]
      exact (foldl_applyExtra_frame uf.extras _).1
  · intro hs
    cases ht : uf.membership_type with
    | none =>
      simp only [apply_updated_fields, ht, hs]
      exact (foldl_applyExtra_frame uf.extras m).2.1
    | some t =>
      simp only [apply_updated_fields, ht, hs]
      exact (foldl_applyExtra_frame uf.extras _).2.1
  · intro k hk
    cases ht : uf.membership_type <;> cases hs : uf.membership_status <;>
      simp only [apply_updated_fields, ht, hs] <;>
      exact foldl_applyExtra_lookup uf.extras _ k hk
  · cases ht : uf.membership_type <;> cases hs : uf.membership_status <;>
      simp only [apply_updated_fields, ht, hs] <;>
      exact (foldl_applyExtra_frame uf.extras _).2.2.1
  · cases ht : uf.membership_type <;> cases hs : uf.membership_status <;>
      simp only [apply_updated_fields, ht, hs] <;>
      exact (foldl_applyExtra_frame uf.extras _).2.2.2.1
  · cases ht : uf.membership_type <;> cases hs : uf.membership_status <;>
      simp only [apply_updated_fields, ht, hs] <;>
      exact (foldl_applyExtra_frame uf.extras _).2.2.2.2

theorem c10_none_values_not_applied_witness :
    (apply_updated_fields ⟨"USER", 1, "BCSC", ["ADMIN"], "PREMIUM", [("phone", "1")]⟩
        ⟨none, some ⟨2⟩, [("phone", none), ("email", some "e")]⟩).membership_type_code =
      "USER" ∧
    assocLookup (apply_updated_fields ⟨"USER", 1, "BCSC", ["ADMIN"], "PREMIUM", [("phone", "1")]⟩
        ⟨none, some ⟨2⟩, [("phone", none), ("email", some "e")]⟩).extras "phone" =
      assocLookup [("phone", "1")] "phone" := by
  refine ⟨(c10_none_values_not_applied _ _).1 rfl,
    (c10_none_values_not_applied _ _).2.2.1 "phone" ?_⟩
  intro v hv
  simp at hv

/-- C8: for a non-bypass caller on an entity outside the proprietorship/partnership
types, a supplied non-empty passcode authorizes iff it equals the stored passcode,
and an empty stored passcode never matches a non-empty supplied one — in particular
supplied `"1234"` against stored `""` is unauthorized. -/
theorem c8_passcode_match_required (entity : EntityModel) (fp : Bool) (pc : String)
    (h1 : entity.corp_type ≠ "SP") (h2 : entity.corp_type ≠ "GP") (h3 : pc ≠ "") :
    (is_authorized false fp entity (some pc) = true ↔
      entity.pass_code ≠ "" ∧ pc = entity.pass_code) ∧
    is_authorized false fp { entity with pass_code := "" } (some "1234") = false := by
  constructor
  · simp [is_authorized, truthy, validate_passcode, h1, h2, h3]
  · simp [is_authorized, truthy, validate_passcode, h1, h2]

theorem c8_passcode_match_required_witness :
    is_authorized false false ⟨"BC", "X", "99"⟩ (some "99") = true ∧
    is_authorized false false ⟨"BC", "X", ""⟩ (some "1234") = false := by
  have h := c8_passcode_match_required ⟨"BC", "X", "99"⟩ false "99"
    (by decide) (by decide) (by decide)
  exact ⟨h.1.mpr ⟨by decide, rfl⟩, h.2⟩

/-- C2 counterexample: a membership that is its org's sole remaining ACTIVE ADMIN is
deactivated by `deactivate_membership` without any owner-count rejection — the guard
the claim asserts does not exist on this path. -/
theorem c2_counterexample_sole_owner_deactivated :
    get_owner_count ["ADMIN"] = 1 ∧
    deactivate_membership ["ADMIN"] true
        ⟨"ADMIN", ACTIVE_STATUS, "BCSC", ["ADMIN"], "PREMIUM", []⟩ =
      .ok ⟨"ADMIN", INACTIVE_STATUS, "BCSC", ["ADMIN"], "PREMIUM", []⟩ := ⟨rfl, rfl⟩

/-- C2 amended: `deactivate_membership` enforces only the two role-based
authorization guards (a caller removing someone else must be COORDINATOR or ADMIN on
the org, and removing an ADMIN requires the ADMIN role); once they pass it
unconditionally transitions the membership to INACTIVE, with no owner-count check —
the sole remaining ACTIVE owner of an org can be deactivated. -/
theorem c2_deactivate_applies_only_role_guards (roles : List String) (is_self : Bool)
    (m : MembershipModel)
    (h1 : is_self = true ∨ check_auth roles [COORDINATOR, ADMIN] = true)
    (h2 : m.membership_type_code = ADMIN → check_auth roles [ADMIN] = true) :
    deactivate_membership roles is_self m = .ok { m with status := INACTIVE_STATUS } := by
  have g1 : (!is_self && !check_auth roles [COORDINATOR, ADMIN]) = false := by
    rcases h1 with h | h <;> simp [h]
  have g2 : (m.membership_type_code == ADMIN && !check_auth roles [ADMIN]) = false := by
    by_cases hm : m.membership_type_code = ADMIN
    · simp [h2 hm]
    · simp [hm]
  simp [deactivate_membership, g1, g2]

theorem c2_deactivate_applies_only_role_guards_witness :
    deactivate_membership ["ADMIN"] false
        ⟨"ADMIN", ACTIVE_STATUS, "BCSC", ["ADMIN"], "PREMIUM", []⟩ =
      .ok ⟨"ADMIN", INACTIVE_STATUS, "BCSC", ["ADMIN"], "PREMIUM", []⟩ :=
  c2_deactivate_applies_only_role_guards ["ADMIN"] false _
    (Or.inr (by decide)) (fun _ => by decide)

/-- C3 counterexample: the staff-org guard rejects an update that sets a membership
ACTIVE in a non-staff-tier org (type `"PREMIUM"`) merely because the user is already
ACTIVE in one staff-tier org — the change creates no second concurrent active
staff-tier membership, yet it is rejected, refuting the claimed "if and only if". -/
theorem c3_counterexample_nonstaff_org_rejected :
    update_membership ["ADMIN"] ⟨["MAXIMUS_STAFF"]⟩
        ⟨"USER", PENDING_APPROVAL_STATUS, "BCSC", ["ADMIN"], "PREMIUM", []⟩
        ⟨none, some ⟨ACTIVE_STATUS⟩, []⟩ = .error .maxNumberOfStaffOrgsLimit ∧
    (⟨"USER", PENDING_APPROVAL_STATUS, "BCSC", ["ADMIN"], "PREMIUM", []⟩ :
        MembershipModel).org_type_code ∉ staff_org_types := by
  exact ⟨rfl, by decide⟩

/-- C3 amended: for an authorized caller, `update_membership` rejects with the
staff-org-limit error exactly when the request sets membership status to ACTIVE and
the user already holds an ACTIVE membership in some staff-tier org; the type of the
target org plays no part in the guard (in particular a user active in staff-tier org
A becoming ACTIVE in staff-tier org B is rejected, but so is becoming ACTIVE in a
non-staff org). -/
theorem c3_staff_guard_ignores_target_org (roles : List String) (w : World)
    (m : MembershipModel) (uf : UpdatedFields)
    (hauth : check_auth roles [COORDINATOR, ADMIN, STAFF] = true) :
    update_membership roles w m uf = .error .maxNumberOfStaffOrgsLimit ↔
      (∃ s, uf.membership_status = some s ∧ s.id = ACTIVE_STATUS) ∧
      ∃ tp ∈ w.user_active_org_types, tp ∈ staff_org_types := by
  rw [← check_staff_org_iff]
  by_cases hg : check_if_add_user_has_active_staff_org uf.membership_status w = true
  · simp [update_membership, hauth, hg]
  · simp only [Bool.not_eq_true] at hg
    simp only [update_membership, hauth, hg, Bool.not_true, Bool.false_eq_true,
      if_false, Bool.true_eq_false, iff_false]
    split_ifs <;> simp

theorem c3_staff_guard_ignores_target_org_witness :
    update_membership ["STAFF"] ⟨["SBC_STAFF"]⟩
        ⟨"USER", PENDING_APPROVAL_STATUS, "BCSC", ["ADMIN"], "CC_STAFF", []⟩
        ⟨none, some ⟨ACTIVE_STATUS⟩, []⟩ = .error .maxNumberOfStaffOrgsLimit := by
  refine (c3_staff_guard_ignores_target_org _ _ _ _ (by decide)).mpr ?_
  exact ⟨⟨⟨ACTIVE_STATUS⟩, rfl, rfl⟩, "SBC_STAFF", by decide, by decide⟩

/-- C9 counterexample: a caller holding only the COORDINATOR role (the second
conjunct shows the caller passes no ADMIN/STAFF check) assigns the ADMIN role to a
membership whose current role is `"USER"` (a plain member), and `update_membership`
accepts, promoting the membership to owner — refuting the claim that promotion to
owner succeeds only when performed by an existing owner or staff. -/
theorem c9_counterexample_coordinator_promotes_member :
    check_auth ["COORDINATOR"] [ADMIN, STAFF] = false ∧
    update_membership ["COORDINATOR"] ⟨[]⟩
        ⟨"USER", ACTIVE_STATUS, "BCSC", ["ADMIN", "USER"], "PREMIUM", []⟩
        ⟨some ⟨"ADMIN"⟩, none, []⟩ =
      .ok ⟨"ADMIN", ACTIVE_STATUS, "BCSC", ["ADMIN", "USER"], "PREMIUM", []⟩ := by
  exact ⟨by decide, rfl⟩

/-- C9 amended: `update_membership` applies no caller-role guard to owner-role
assignment. The line-237 check compares the requested `membership_type` (a
`MembershipType` model object) with the string `ADMIN`, which never matches, so the
ADMIN/STAFF re-authorization is never invoked: whenever the caller passes the basic
COORDINATOR/ADMIN/STAFF check and the staff-org, BCEID and sole-owner guards do not
fire, a request assigning any role — including ADMIN — succeeds, regardless of
whether the caller is an owner or staff. -/
theorem c9_owner_promotion_without_admin_caller (roles : List String) (w : World)
    (m : MembershipModel) (t : MType) (extras : List (String × Option String))
    (hauth : check_auth roles [COORDINATOR, ADMIN, STAFF] = true)
    (hnb : m.login_source ≠ "BCEID")
    (hguard : m.membership_type_code ≠ ADMIN ∨ get_owner_count m.org_members ≠ 1) :
    update_membership roles w m ⟨some t, none, extras⟩ =
      .ok (apply_updated_fields m ⟨some t, none, extras⟩) := by
  have hg : m.membership_type_code = ADMIN → ¬ get_owner_count m.org_members = 1 := by
    intro ha
    rcases hguard with h | h
    · exact absurd ha h
    · exact h
  simp only [update_membership, hauth, check_if_add_user_has_active_staff_org,
    py_eq_mtype_str]
  simp [hnb]
  exact hg

theorem c9_owner_promotion_without_admin_caller_witness :
    update_membership ["COORDINATOR"] ⟨[]⟩
        ⟨"COORDINATOR", ACTIVE_STATUS, "BCSC", ["ADMIN", "COORDINATOR"], "PREMIUM", []⟩
        ⟨some ⟨"ADMIN"⟩, none, []⟩ =
      .ok (apply_updated_fields
        ⟨"COORDINATOR", ACTIVE_STATUS, "BCSC", ["ADMIN", "COORDINATOR"], "PREMIUM", []⟩
        ⟨some ⟨"ADMIN"⟩, none, []⟩) :=
  c9_owner_promotion_without_admin_caller _ _ _ _ _ (by decide) (by decide)
    (Or.inl (by decide))

/-- C1: for an authorized caller and a target membership whose current role is ADMIN,
when the org has exactly one ACTIVE ADMIN membership both a deactivation request
(status to INACTIVE) and a demotion request (membership_type away from ADMIN) are
rejected with the only-owner `BusinessRuleViolation` (no state is produced, so the
membership is unchanged); with two ACTIVE ADMIN memberships the deactivation request
is accepted and the stored status becomes INACTIVE. -/
theorem c1_sole_owner_guard (roles : List String) (w : World) (m : MembershipModel)
    (t : MType) (ufx dfx : List (String × Option String))
    (hauth : check_auth roles [COORDINATOR, ADMIN, STAFF] = true)
    (hadmin : m.membership_type_code = ADMIN) :
    (get_owner_count m.org_members = 1 →
      update_membership roles w m ⟨none, some ⟨INACTIVE_STATUS⟩, ufx⟩ =
        .error .changeRoleFailedOnlyOwner) ∧
    (get_owner_count m.org_members = 1 → t.code ≠ ADMIN →
      update_membership roles w m ⟨some t, none, dfx⟩ =
        .error .changeRoleFailedOnlyOwner) ∧
    (get_owner_count m.org_members = 2 →
      update_membership roles w m ⟨none, some ⟨INACTIVE_STATUS⟩, ufx⟩ =
        .ok (apply_updated_fields m ⟨none, some ⟨INACTIVE_STATUS⟩, ufx⟩) ∧
      (apply_updated_fields m ⟨none, some ⟨INACTIVE_STATUS⟩, ufx⟩).status =
        INACTIVE_STATUS) := by
  have hauth' : check_auth roles ["COORDINATOR", "ADMIN", "STAFF"] = true := hauth
  refine ⟨?_, ?_, ?_⟩
  · intro h1
    simp [update_membership, hauth', hadmin, h1,
      check_if_add_user_has_active_staff_org, ACTIVE_STATUS, INACTIVE_STATUS, ADMIN,
      COORDINATOR, STAFF]
  · intro h1 ht
    have ht' : t.code ≠ "ADMIN" := ht
    simp [update_membership, hauth', hadmin, h1, ht',
      check_if_add_user_has_active_staff_org, py_eq_mtype_str, ADMIN, COORDINATOR, STAFF]
  · intro h2
    constructor
    · simp [update_membership, hauth', hadmin, h2,
        check_if_add_user_has_active_staff_org, py_eq_mtype_str, ACTIVE_STATUS,
        INACTIVE_STATUS, ADMIN, COORDINATOR, STAFF]
    · exact (foldl_applyExtra_frame ufx _).2.1

theorem c1_sole_owner_guard_witness :
    update_membership ["ADMIN"] ⟨[]⟩
        ⟨"ADMIN", ACTIVE_STATUS, "BCSC", ["ADMIN"], "PREMIUM", []⟩
        ⟨none, some ⟨INACTIVE_STATUS⟩, []⟩ = .error .changeRoleFailedOnlyOwner ∧
    update_membership ["ADMIN"] ⟨[]⟩
        ⟨"ADMIN", ACTIVE_STATUS, "BCSC", ["ADMIN", "ADMIN"], "PREMIUM", []⟩
        ⟨none, some ⟨INACTIVE_STATUS⟩, []⟩ =
      .ok (apply_updated_fields
        ⟨"ADMIN", ACTIVE_STATUS, "BCSC", ["ADMIN", "ADMIN"], "PREMIUM", []⟩
        ⟨none, some ⟨INACTIVE_STATUS⟩, []⟩) := by
  refine ⟨(c1_sole_owner_guard ["ADMIN"] ⟨[]⟩ _ ⟨"USER"⟩ [] [] (by decide) rfl).1
      (by decide),
    ((c1_sole_owner_guard ["ADMIN"] ⟨[]⟩ _ ⟨"USER"⟩ [] [] (by decide) rfl).2.2
      (by decide)).1⟩

theorem assocLookup_assocErase_self {β : Type} (m : List (String × β)) (k : String) :
    assocLookup (assocErase m k) k = none := by
  induction m with
  | nil => rfl
  | cons p rest ih =>
    by_cases hp : p.1 = k
    · simpa [assocErase, List.filter_cons, hp] using ih
    · simpa [assocErase, List.filter_cons, hp, assocLookup] using ih

theorem assocLookup_assocErase_ne {β : Type} (m : List (String × β)) (k k' : String)
    (h : k' ≠ k) : assocLookup (assocErase m k) k' = assocLookup m k' := by
  induction m with
  | nil => rfl
  | cons p rest ih =>
    cases p with
    | mk pk pv =>
      by_cases hp : pk = k
      · have hpk : ¬ pk = k' := by
          intro hk
          exact h (by rw [← hk, hp])
        have hcond : (pk != k) = false := by simp [hp]
        simp only [assocErase, List.filter_cons, hcond, Bool.false_eq_true, if_false] at ih ⊢
        rw [ih]
        simp [assocLookup, hpk]
      · have hcond : (pk != k) = true := by simp [hp]
        simp only [assocErase, List.filter_cons, hcond, if_true] at ih ⊢
        by_cases hk : pk = k'
        · simp [assocLookup, hk]
        · simp only [assocLookup, if_neg hk]
          exact ih

/-- C4: during reconciliation linking, a draft and a business carrying the same
resolving name-request reference whose name request is CONSUMED: the draft (the first
copy reached by the `drafts + businesses` iteration) is linked, recognised as
consumed and removed from the result, and the mapping entry is deleted; the business
copy no longer resolves and is retained unchanged. The combined result is the
remaining standalone name requests followed by the business. Quantified over the
remaining mapping, all record contents and the `remove_stale_drafts` flag. -/
theorem c4_consumed_draft_removed_business_kept
    (nrm : List (String × Rec)) (d b : Rec) (n : String) (entry : Rec) (nr : NRRec)
    (rsd : Bool) (hn : n ≠ "")
    (hd : d.nrNumber = some n) (hb : b.nrNumber = some n)
    (hl : assocLookup nrm n = some entry) (he : entry.nameRequest = some nr)
    (hc : nr.stateCd = "CONSUMED") :
    combine_nrs nrm [b] [d] rsd =
      some ((assocErase nrm n).map (fun p => p.2) ++ [b]) := by
  have htr : truthy (some n) = true := by simp [truthy, hn]
  have hx : assocLookup (assocErase nrm n) n = none := assocLookup_assocErase_self nrm n
  have hstep1 : combineStep rsd ⟨nrm, [(0, d)], [(1, b)]⟩ 0 d =
      some ⟨assocErase nrm n, [], [(1, b)]⟩ := by
    cases hg : updateDraftTypeGuard { d with nameRequest := some nr } nr <;>
      simp [combineStep, attachNR, hd, htr, hl, he, hc, hg, setId, removeFirstEq]
  have hstep2 : combineStep rsd (⟨assocErase nrm n, [], [(1, b)]⟩ : CState) 1 b =
      some ⟨assocErase nrm n, [], [(1, b)]⟩ := by
    simp [combineStep, hb, htr, hx, memValue]
  simp [combine_nrs, combineStateRun, tagFrom, combineSteps, hstep1, hstep2, renderState]

theorem c4_consumed_draft_removed_business_kept_witness :
    combine_nrs [("NR1", nrEntry ⟨some "NR1", "CONSUMED", "NEW"⟩)]
        [⟨some "B1", some "NR1", none, none, none, 1⟩]
        [⟨some "D1", some "NR1", none, none, none, 0⟩] true =
      some [⟨some "B1", some "NR1", none, none, none, 1⟩] := by
  have h := c4_consumed_draft_removed_business_kept
    [("NR1", nrEntry ⟨some "NR1", "CONSUMED", "NEW"⟩)]
    ⟨some "D1", some "NR1", none, none, none, 0⟩
    ⟨some "B1", some "NR1", none, none, none, 1⟩ "NR1"
    (nrEntry ⟨some "NR1", "CONSUMED", "NEW"⟩) ⟨some "NR1", "CONSUMED", "NEW"⟩ true
    (by decide) rfl rfl rfl rfl rfl
  simpa using h

/-- C6 counterexample: a draft that lacks any name-request reference is retained in
the combined result even when `remove_stale_drafts` is `true` — the stale-draft
removal sits inside the `if "nrNumber" in business and business["nrNumber"]` guard,
so the claim's "absent when remove_stale_drafts is true" fails for such drafts. -/
theorem c6_counterexample_unreferenced_draft_kept :
    combine_nrs [] [] [⟨some "D1", none, none, none, none, 0⟩] true =
      some [⟨some "D1", none, none, none, none, 0⟩] := rfl

/-- C6 amended: a draft whose name-request reference is present and truthy but does
not resolve in the mapping is absent from the combined result when
`remove_stale_drafts` is true and present when it is false; a draft lacking a
reference (key absent or empty) is always retained, whatever the flag. -/
theorem c6_stale_draft_policy (nrm : List (String × Rec)) (d : Rec) (n : String)
    (rsd : Bool) (hn : n ≠ "") (hd : d.nrNumber = some n)
    (hl : assocLookup nrm n = none) :
    combine_nrs nrm [] [d] rsd =
      some (nrm.map (fun p => p.2) ++ (if rsd then [] else [d])) ∧
    ∀ d' : Rec, d'.nrNumber = none ∨ d'.nrNumber = some "" →
      combine_nrs nrm [] [d'] rsd = some (nrm.map (fun p => p.2) ++ [d']) := by
  have htr : truthy (some n) = true := by simp [truthy, hn]
  constructor
  · have hstep : combineStep rsd ⟨nrm, [(0, d)], []⟩ 0 d =
        some ⟨nrm, if rsd then [] else [(0, d)], []⟩ := by
      cases rsd <;>
        simp [combineStep, hd, htr, hl, memValue, removeFirstEq]
    cases rsd <;>
      simp_all [combine_nrs, combineStateRun, tagFrom, combineSteps, renderState]
  · intro d' hd'
    have htr' : truthy d'.nrNumber = false := by
      rcases hd' with h | h <;> simp [truthy, h]
    simp [combine_nrs, combineStateRun, tagFrom, combineSteps, combineStep, htr',
      renderState]

theorem c6_stale_draft_policy_witness :
    combine_nrs [] [] [⟨some "D1", some "NRX", none, none, none, 0⟩] true = some [] ∧
    combine_nrs [] [] [⟨some "D1", some "NRX", none, none, none, 0⟩] false =
      some [⟨some "D1", some "NRX", none, none, none, 0⟩] := by
  have h1 := (c6_stale_draft_policy [] ⟨some "D1", some "NRX", none, none, none, 0⟩
    "NRX" true (by decide) rfl rfl).1
  have h2 := (c6_stale_draft_policy [] ⟨some "D1", some "NRX", none, none, none, 0⟩
    "NRX" false (by decide) rfl rfl).1
  exact ⟨by simpa using h1, by simpa using h2⟩

theorem orderedInsertDesc_perm {α : Type} (key : α → Nat) (a : α) :
    ∀ l : List α, (orderedInsertDesc key a l).Perm (a :: l)
  | [] => List.Perm.refl _
  | b :: l => by
    unfold orderedInsertDesc
    by_cases h : key b ≤ key a
    · simp [h]
    · simp only [if_neg h]
      exact ((orderedInsertDesc_perm key a l).cons b).trans (List.Perm.swap a b l)

theorem sortDescBy_perm {α : Type} (key : α → Nat) :
    ∀ l : List α, (sortDescBy key l).Perm l
  | [] => List.Perm.refl _
  | a :: l =>
    (orderedInsertDesc_perm key a (sortDescBy key l)).trans ((sortDescBy_perm key l).cons a)

theorem pairwise_orderedInsertDesc {α : Type} (key : α → Nat) (a : α) :
    ∀ l : List α, List.Pairwise (fun x y => key y ≤ key x) l →
      List.Pairwise (fun x y => key y ≤ key x) (orderedInsertDesc key a l)
  | [], _ => by simp [orderedInsertDesc]
  | b :: l, hp => by
    unfold orderedInsertDesc
    by_cases h : key b ≤ key a
    · simp only [if_pos h]
      refine List.Pairwise.cons ?_ hp
      intro c hc
      rcases List.mem_cons.mp hc with rfl | hc
      · exact h
      · exact le_trans (List.rel_of_pairwise_cons hp hc) h
    · simp only [if_neg h]
      refine List.Pairwise.cons ?_ (pairwise_orderedInsertDesc key a l hp.of_cons)
      intro c hc
      rcases List.mem_cons.mp ((orderedInsertDesc_perm key a l).mem_iff.mp hc) with rfl | hcl
      · exact le_of_not_le h
      · exact List.rel_of_pairwise_cons hp hcl

theorem sortDescBy_pairwise {α : Type} (key : α → Nat) :
    ∀ l : List α, List.Pairwise (fun x y => key y ≤ key x) (sortDescBy key l)
  | [] => List.Pairwise.nil
  | a :: l => pairwise_orderedInsertDesc key a _ (sortDescBy_pairwise key l)

theorem filter_orderedInsertDesc_ne {α : Type} (key : α → Nat) (a : α) (v : Nat)
    (ha : ¬ key a = v) :
    ∀ l : List α, (orderedInsertDesc key a l).filter (fun x => key x == v) =
      l.filter (fun x => key x == v)
  | [] => by simp [orderedInsertDesc, ha]
  | b :: l => by
    unfold orderedInsertDesc
    by_cases h : key b ≤ key a
    · rw [if_pos h]
      simp [List.filter_cons, ha]
    · simp only [if_neg h, List.filter_cons,
        filter_orderedInsertDesc_ne key a v ha l]

theorem filter_orderedInsertDesc_eq {α : Type} (key : α → Nat) (a : α) (v : Nat)
    (ha : key a = v) :
    ∀ l : List α, List.Pairwise (fun x y => key y ≤ key x) l →
      (orderedInsertDesc key a l).filter (fun x => key x == v) =
        a :: l.filter (fun x => key x == v)
  | [], _ => by simp [orderedInsertDesc, ha]
  | b :: l, hp => by
    unfold orderedInsertDesc
    by_cases h : key b ≤ key a
    · rw [if_pos h]
      simp [List.filter_cons, ha]
    · have hv : key a < key b := lt_of_not_le h
      have hne : (key b == v) = false := by
        have : ¬ key b = v := by omega
        simp [this]
      simp only [if_neg h, List.filter_cons, hne, Bool.false_eq_true, if_false]
      exact filter_orderedInsertDesc_eq key a v ha l hp.of_cons

theorem filter_sortDescBy {α : Type} (key : α → Nat) (v : Nat) :
    ∀ l : List α, (sortDescBy key l).filter (fun x => key x == v) =
      l.filter (fun x => key x == v)
  | [] => rfl
  | a :: l => by
    by_cases ha : key a = v
    · rw [sortDescBy, filter_orderedInsertDesc_eq key a v ha _ (sortDescBy_pairwise key l),
        filter_sortDescBy key v l]
      simp [List.filter_cons, ha]
    · rw [sortDescBy, filter_orderedInsertDesc_ne key a v ha _, filter_sortDescBy key v l]
      simp [List.filter_cons, ha]

/-- C7: `_sort_affiliations_by_created` permutes the combined records into
descending order of the key looked up in the `ordered` mapping built from the
original `AffiliationBase` list (business/draft records by their `identifier`,
name-request records by their `nrNum`; records without a base get the minimal
timestamp), records with equal keys retain their discovery order (their filtered
subsequence is unchanged), and in particular bases created at 30 > 20 > 10 order the
corresponding records T1, T2, T3. -/
theorem c7_sorted_by_base_created (combined : List Rec) (bases : List AffiliationBase) :
    (sort_affiliations_by_created combined bases).Perm combined ∧
    List.Pairwise
      (fun x y => sortKeyOf (buildOrdered bases) y ≤ sortKeyOf (buildOrdered bases) x)
      (sort_affiliations_by_created combined bases) ∧
    (∀ v, (sort_affiliations_by_created combined bases).filter
        (fun r => sortKeyOf (buildOrdered bases) r == v) =
      combined.filter (fun r => sortKeyOf (buildOrdered bases) r == v)) ∧
    sort_affiliations_by_created
      [⟨some "C", none, none, none, none, 3⟩, ⟨some "A", none, none, none, none, 1⟩,
        ⟨none, none, some ⟨some "NRX", "APPROVED", "NEW"⟩, none, some "NR", 0⟩]
      [⟨"A", 30⟩, ⟨"NRX", 20⟩, ⟨"C", 10⟩] =
      [⟨some "A", none, none, none, none, 1⟩,
        ⟨none, none, some ⟨some "NRX", "APPROVED", "NEW"⟩, none, some "NR", 0⟩,
        ⟨some "C", none, none, none, none, 3⟩] :=
  ⟨sortDescBy_perm _ _, sortDescBy_pairwise _ _, fun v => filter_sortDescBy _ v _, rfl⟩

theorem attachNR_nameRequest (rec : Rec) (nr : NRRec) :
    (attachNR rec nr).nameRequest = some nr := by
  cases h : updateDraftTypeGuard { rec with nameRequest := some nr } nr <;>
    simp [attachNR, h]

theorem mem_of_assocLookup_eq_some {β : Type} :
    ∀ (m : List (String × β)) (k : String) (v : β),
      assocLookup m k = some v → (k, v) ∈ m
  | [], k, v => by simp [assocLookup]
  | p :: rest, k, v => by
    cases p with
    | mk pk pv =>
      simp only [assocLookup]
      by_cases hk : pk = k
      · rw [if_pos hk]
        intro h
        have hv : pv = v := Option.some.inj h
        subst hv
        subst hk
        exact List.mem_cons_self _ _
      · rw [if_neg hk]
        intro h
        exact List.mem_cons_of_mem _ (mem_of_assocLookup_eq_some rest k v h)

theorem assocLookup_ne_none_of_mem {β : Type} :
    ∀ (m : List (String × β)) (k : String) (v : β),
      (k, v) ∈ m → assocLookup m k ≠ none
  | [], k, v => by simp
  | p :: rest, k, v => by
    intro hm
    cases p with
    | mk pk pv =>
      simp only [assocLookup]
      by_cases hk : pk = k
      · rw [if_pos hk]
        simp
      · rw [if_neg hk]
        rcases List.mem_cons.mp hm with he | hm'
        · injection he with h1 h2
          exact absurd h1.symm hk
        · exact assocLookup_ne_none_of_mem rest k v hm'

theorem mem_assocSet {β : Type} :
    ∀ (m : List (String × β)) (k : String) (v : β) (p : String × β),
      p ∈ assocSet m k v → p ∈ m ∨ p = (k, v)
  | [], k, v, p => by
    intro hp
    simp only [assocSet, List.mem_singleton] at hp
    exact Or.inr hp
  | q :: rest, k, v, p => by
    cases q with
    | mk qk qv =>
      simp only [assocSet]
      by_cases hq : qk = k
      · rw [if_pos hq]
        intro hp
        rcases List.mem_cons.mp hp with rfl | hp'
        · right; rfl
        · left; exact List.mem_cons_of_mem _ hp'
      · rw [if_neg hq]
        intro hp
        rcases List.mem_cons.mp hp with rfl | hp'
        · left; exact List.mem_cons_self _ _
        · rcases mem_assocSet rest k v p hp' with h' | h'
          · left; exact List.mem_cons_of_mem _ h'
          · right; exact h'

theorem mem_setId {i : Nat} {v : Rec} {l : List (Nat × Rec)} {p : Nat × Rec}
    (h : p ∈ setId i v l) : p = (i, v) ∨ p ∈ l := by
  rcases List.mem_map.mp h with ⟨q, hq, he⟩
  by_cases hqi : q.1 = i
  · left
    rw [← he, if_pos hqi]
  · right
    rw [← he, if_neg hqi]
    exact hq

theorem mem_of_removeFirstEq (v : Rec) :
    ∀ (l l' : List (Nat × Rec)), removeFirstEq v l = some l' →
      ∀ p, p ∈ l' → p ∈ l
  | [], l', h => by simp [removeFirstEq] at h
  | q :: rest, l', h => by
    intro p hp
    simp only [removeFirstEq] at h
    by_cases hq : q.2 = v
    · rw [if_pos hq] at h
      have : rest = l' := Option.some.inj h
      subst this
      exact List.mem_cons_of_mem _ hp
    · rw [if_neg hq] at h
      rcases Option.map_eq_some'.mp h with ⟨l'', h1, h2⟩
      subst h2
      rcases List.mem_cons.mp hp with rfl | hp'
      · exact List.mem_cons_self _ _
      · exact List.mem_cons_of_mem _ (mem_of_removeFirstEq v rest l'' h1 p hp')

theorem mem_of_mem_assocErase {β : Type} {m : List (String × β)} {k : String}
    {p : String × β} (h : p ∈ assocErase m k) : p ∈ m :=
  List.mem_of_mem_filter h

theorem snd_mem_of_mem_tagFrom :
    ∀ (s : Nat) (l : List Rec) (p : Nat × Rec), p ∈ tagFrom s l → p.2 ∈ l
  | _, [], p => by simp [tagFrom]
  | s, r :: rest, p => by
    simp only [tagFrom]
    intro hp
    rcases List.mem_cons.mp hp with rfl | hp'
    · exact List.mem_cons_self _ _
    · exact List.mem_cons_of_mem _ (snd_mem_of_mem_tagFrom (s + 1) rest p hp')

theorem wellKeyed_nrFold :
    ∀ (nrs : List NRRec) (m : List (String × Rec)),
      (∀ p ∈ m, ∃ nr, (p.2).nameRequest = some nr ∧ nr.nrNum = some p.1) →
      ∀ p ∈ nrs.foldl nrFoldStep m,
        ∃ nr, (p.2).nameRequest = some nr ∧ nr.nrNum = some p.1
  | [], _, hm => hm
  | nr :: rest, m, hm => by
    simp only [List.foldl_cons]
    refine wellKeyed_nrFold rest (nrFoldStep m nr) ?_
    intro p hp
    cases hn : nr.nrNum with
    | none =>
      rw [nrFoldStep, hn] at hp
      exact hm p hp
    | some n =>
      rw [nrFoldStep, hn] at hp
      rcases mem_assocSet _ _ _ _ hp with h' | h'
      · exact hm p h'
      · subst h'
        exact ⟨nr, rfl, hn⟩

theorem wellKeyed_group :
    ∀ (details : List RawResp) (acc : List (String × Rec) × List Rec × List Rec),
      (∀ p ∈ acc.1, ∃ nr, (p.2).nameRequest = some nr ∧ nr.nrNum = some p.1) →
      ∀ p ∈ (details.foldl groupStep acc).1,
        ∃ nr, (p.2).nameRequest = some nr ∧ nr.nrNum = some p.1
  | [], _, hm => hm
  | data :: rest, acc, hm => by
    simp only [List.foldl_cons]
    refine wellKeyed_group rest (groupStep acc data) ?_
    have heq : (groupStep acc data).1 = (extract_name_requests data).foldl nrFoldStep acc.1 := by
      cases data <;> rfl
    rw [heq]
    exact wellKeyed_nrFold _ _ hm

theorem combineStep_preserves_inv (rsd : Bool) (st st' : CState) (i : Nat) (rec : Rec)
    (h : combineStep rsd st i rec = some st')
    (hw : ∀ p ∈ st.nrm, ∃ nr, (p.2).nameRequest = some nr ∧ nr.nrNum = some p.1)
    (hd : ∀ p ∈ st.drafts ++ st.businesses, ∀ nr k, (p.2).nameRequest = some nr →
      nr.nrNum = some k → assocLookup st.nrm k = none) :
    (∀ p ∈ st'.nrm, ∃ nr, (p.2).nameRequest = some nr ∧ nr.nrNum = some p.1) ∧
    (∀ p ∈ st'.drafts ++ st'.businesses, ∀ nr k, (p.2).nameRequest = some nr →
      nr.nrNum = some k → assocLookup st'.nrm k = none) := by
  simp only [combineStep] at h
  by_cases ht : truthy rec.nrNumber = true
  · rw [if_pos ht] at h
    cases hl : assocLookup st.nrm (rec.nrNumber.getD "") with
    | none =>
      simp only [hl] at h
      by_cases hm : (rsd && memValue rec st.drafts) = true
      · rw [if_pos hm] at h
        cases hr : removeFirstEq rec st.drafts with
        | none => simp [hr] at h
        | some ds =>
          simp only [hr] at h
          have hst := Option.some.inj h
          subst hst
          refine ⟨hw, ?_⟩
          intro p hp nr k h1 h2
          have hp' : p ∈ st.drafts ++ st.businesses := by
            rcases List.mem_append.mp hp with h' | h'
            · exact List.mem_append.mpr
                (Or.inl (mem_of_removeFirstEq rec st.drafts ds hr p h'))
            · exact List.mem_append.mpr (Or.inr h')
          exact hd p hp' nr k h1 h2
      · rw [if_neg hm] at h
        have hst := Option.some.inj h
        subst hst
        exact ⟨hw, hd⟩
    | some entry =>
      simp only [hl] at h
      cases he : entry.nameRequest with
      | none => simp [he] at h
      | some nr0 =>
        simp only [he] at h
        have hkey : nr0.nrNum = some (rec.nrNumber.getD "") := by
          obtain ⟨nr', hnr1, hnr2⟩ := hw _ (mem_of_assocLookup_eq_some _ _ _ hl)
          rw [he] at hnr1
          have hx : nr0 = nr' := Option.some.inj hnr1
          rw [hx]
          exact hnr2
        by_cases hc : (nr0.stateCd == "CONSUMED") = true
        · rw [if_pos hc] at h
          cases hr : removeFirstEq (attachNR rec nr0) (setId i (attachNR rec nr0) st.drafts) with
          | none => simp [hr] at h
          | some ds =>
            simp only [hr] at h
            have hst := Option.some.inj h
            subst hst
            constructor
            · intro p hp
              exact hw p (mem_of_mem_assocErase hp)
            · intro p hp nr k h1 h2
              have hp' : p = (i, attachNR rec nr0) ∨ p ∈ st.drafts ++ st.businesses := by
                rcases List.mem_append.mp hp with h' | h'
                · rcases mem_setId (mem_of_removeFirstEq _ _ _ hr p h') with h'' | h''
                  · exact Or.inl h''
                  · exact Or.inr (List.mem_append.mpr (Or.inl h''))
                · rcases mem_setId h' with h'' | h''
                  · exact Or.inl h''
                  · exact Or.inr (List.mem_append.mpr (Or.inr h''))
              rcases hp' with rfl | hmem
              · have hatt : (attachNR rec nr0).nameRequest = some nr := h1
                rw [attachNR_nameRequest] at hatt
                have hn0 : nr0 = nr := Option.some.inj hatt
                rw [← hn0] at h2
                rw [hkey] at h2
                have hk : rec.nrNumber.getD "" = k := Option.some.inj h2
                subst hk
                exact assocLookup_assocErase_self _ _
              · have hkn := hd p hmem nr k h1 h2
                by_cases hkeq : k = rec.nrNumber.getD ""
                · subst hkeq
                  exact assocLookup_assocErase_self _ _
                · rw [assocLookup_assocErase_ne _ _ _ hkeq]
                  exact hkn
        · rw [if_neg hc] at h
          have hst := Option.some.inj h
          subst hst
          constructor
          · intro p hp
            exact hw p (mem_of_mem_assocErase hp)
          · intro p hp nr k h1 h2
            have hp' : p = (i, attachNR rec nr0) ∨ p ∈ st.drafts ++ st.businesses := by
              rcases List.mem_append.mp hp with h' | h'
              · rcases mem_setId h' with h'' | h''
                · exact Or.inl h''
                · exact Or.inr (List.mem_append.mpr (Or.inl h''))
              · rcases mem_setId h' with h'' | h''
                · exact Or.inl h''
                · exact Or.inr (List.mem_append.mpr (Or.inr h''))
            rcases hp' with rfl | hmem
            · have hatt : (attachNR rec nr0).nameRequest = some nr := h1
              rw [attachNR_nameRequest] at hatt
              have hn0 : nr0 = nr := Option.some.inj hatt
              rw [← hn0] at h2
              rw [hkey] at h2
              have hk : rec.nrNumber.getD "" = k := Option.some.inj h2
              subst hk
              exact assocLookup_assocErase_self _ _
            · have hkn := hd p hmem nr k h1 h2
              by_cases hkeq : k = rec.nrNumber.getD ""
              · subst hkeq
                exact assocLookup_assocErase_self _ _
              · rw [assocLookup_assocErase_ne _ _ _ hkeq]
                exact hkn
  · rw [if_neg ht] at h
    have hst := Option.some.inj h
    subst hst
    exact ⟨hw, hd⟩

theorem combineSteps_preserves_inv (rsd : Bool) :
    ∀ (snap : List (Nat × Rec)) (st st' : CState),
      combineSteps rsd snap st = some st' →
      ((∀ p ∈ st.nrm, ∃ nr, (p.2).nameRequest = some nr ∧ nr.nrNum = some p.1) ∧
        (∀ p ∈ st.drafts ++ st.businesses, ∀ nr k, (p.2).nameRequest = some nr →
          nr.nrNum = some k → assocLookup st.nrm k = none)) →
      ((∀ p ∈ st'.nrm, ∃ nr, (p.2).nameRequest = some nr ∧ nr.nrNum = some p.1) ∧
        (∀ p ∈ st'.drafts ++ st'.businesses, ∀ nr k, (p.2).nameRequest = some nr →
          nr.nrNum = some k → assocLookup st'.nrm k = none))
  | [], st, st', h, hinv => by
    simp only [combineSteps] at h
    have hst := Option.some.inj h
    subst hst
    exact hinv
  | (i, r) :: rest, st, st', h, hinv => by
    simp only [combineSteps] at h
    cases hs : combineStep rsd st i r with
    | none =>
      simp only [hs] at h
      exact absurd h (by simp)
    | some st1 =>
      simp only [hs] at h
      exact combineSteps_preserves_inv rsd rest st1 st' h
        ⟨(combineStep_preserves_inv rsd st st1 i r hs hinv.1 hinv.2).1,
          (combineStep_preserves_inv rsd st st1 i r hs hinv.1 hinv.2).2⟩

/-- C5 counterexample: two business records with the same identifier both survive
`_combine_affiliation_details` — the reconciliation performs no dedup by identifier,
refuting the "no identifier appears twice" half of the claim. -/
theorem c5_counterexample_duplicate_identifier :
    combine_affiliation_details
        [.payload none false (some [⟨some "BC1", none, none, none, none, 0⟩,
          ⟨some "BC1", none, none, none, none, 1⟩]) none] true =
      some [⟨some "BC1", none, none, none, none, 0⟩,
        ⟨some "BC1", none, none, none, none, 1⟩] := rfl

/-- C5 amended: duplicate identifiers are not removed, but the second half of the
claim holds — when the raw business/draft records of the responses carry no
pre-attached name request, every name-request payload attached to a surviving draft
or business during `_combine_affiliation_details` has been deleted from the mapping,
so its number differs from the number of every standalone name-request record of the
result (the result being the rendering of the final loop state: standalone entries,
then drafts, then businesses). -/
theorem c5_attached_nr_never_standalone (details : List RawResp) (rsd : Bool)
    (st : CState)
    (hraw : ∀ r ∈ (group_details details).2.1 ++ (group_details details).2.2,
      r.nameRequest = none)
    (hrun : combineStateRun (group_details details).1 (group_details details).2.1
        (group_details details).2.2 rsd = some st) :
    combine_affiliation_details details rsd = some (renderState st) ∧
    ∀ p ∈ st.drafts ++ st.businesses, ∀ nr k, (p.2).nameRequest = some nr →
      nr.nrNum = some k →
      ∀ q ∈ st.nrm, ∀ qnr, (q.2).nameRequest = some qnr → qnr.nrNum ≠ some k := by
  constructor
  · unfold combine_affiliation_details combine_nrs
    rw [hrun]
    rfl
  · have hinit1 : ∀ p ∈ (group_details details).1,
        ∃ nr, (p.2).nameRequest = some nr ∧ nr.nrNum = some p.1 := by
      refine wellKeyed_group details ([], [], []) ?_
      intro p hp
      simp at hp
    simp only [combineStateRun] at hrun
    have hinit2 : ∀ p ∈ (tagFrom 0 (group_details details).2.2 ++
        tagFrom (group_details details).2.2.length (group_details details).2.1),
        ∀ nr k, (p.2).nameRequest = some nr → nr.nrNum = some k →
          assocLookup (group_details details).1 k = none := by
      intro p hp nr k h1 h2
      have hpm : p.2 ∈ (group_details details).2.1 ++ (group_details details).2.2 := by
        rcases List.mem_append.mp hp with h' | h'
        · exact List.mem_append.mpr (Or.inr (snd_mem_of_mem_tagFrom _ _ _ h'))
        · exact List.mem_append.mpr (Or.inl (snd_mem_of_mem_tagFrom _ _ _ h'))
      rw [hraw p.2 hpm] at h1
      simp at h1
    have hfin := combineSteps_preserves_inv rsd _ _ _ hrun ⟨hinit1, hinit2⟩
    intro p hp nr k h1 h2 q hq qnr hq1 hq2
    have hnone := hfin.2 p hp nr k h1 h2
    obtain ⟨qnr', hq1', hq2'⟩ := hfin.1 q hq
    rw [hq1] at hq1'
    have hqe : qnr = qnr' := Option.some.inj hq1'
    rw [hqe, hq2'] at hq2
    have hk : q.1 = k := Option.some.inj hq2
    have hmem : (k, q.2) ∈ st.nrm := by
      rw [← hk]
      exact hq
    exact assocLookup_ne_none_of_mem st.nrm k q.2 hmem hnone

theorem c5_attached_nr_never_standalone_witness :
    combine_affiliation_details
        [.payload (some [⟨some "NR1", "DRAFT", "NEW"⟩]) false none
          (some [⟨some "D1", some "NR1", none, none, none, 0⟩])] true =
      some (renderState ⟨[], [(0, ⟨some "D1", some "NR1",
        some ⟨some "NR1", "DRAFT", "NEW"⟩, none, none, 0⟩)], []⟩) :=
  (c5_attached_nr_never_standalone
    [.payload (some [⟨some "NR1", "DRAFT", "NEW"⟩]) false none
      (some [⟨some "D1", some "NR1", none, none, none, 0⟩])] true
    ⟨[], [(0, ⟨some "D1", some "NR1", some ⟨some "NR1", "DRAFT", "NEW"⟩,
      none, none, 0⟩)], []⟩ (by decide) (by decide)).1
